import Mathlib

/-!
Verification of the x402-k8s-operator repository: a shallow embedding of the
gateway request pipeline, the payment-protocol helpers and the reconciler's
compile/publish step, with theorems settling the specification's claims.

Strings are modelled as Lean `String`; the Go standard-library string helpers
used by the source (`strings.TrimSuffix`, `strings.TrimRight(s, "/")`,
`strings.HasPrefix`, `strings.Split(s, "/")`, `strings.Trim(s, "/")`) are
embedded below on `List Char` and wrapped for `String`.
-/

namespace X402

/-- Embedding of Go `strings.HasSuffix s suffix`. -/
def goHasSuffix (s suffix : String) : Bool :=
  suffix.data.isSuffixOf s.data

/-- Embedding of Go `strings.HasPrefix s pre`. -/
def goHasPrefix (s pre : String) : Bool :=
  pre.data.isPrefixOf s.data

/-- Embedding of Go `strings.TrimSuffix s suffix`: removes one trailing copy
of `suffix` when present. -/
def goTrimSuffix (s suffix : String) : String :=
  if goHasSuffix s suffix then
    ⟨s.data.take (s.data.length - suffix.data.length)⟩
  else s

/-- Embedding of Go `strings.TrimRight(s, "/")`: removes all trailing `/`. -/
def goTrimRightSlash (s : String) : String :=
  ⟨(s.data.reverse.dropWhile (· == '/')).reverse⟩

/-- Embedding of Go `strings.Trim(s, "/")`: removes leading and trailing `/`. -/
def goTrimSlash (s : String) : String :=
  ⟨((s.data.dropWhile (· == '/')).reverse.dropWhile (· == '/')).reverse⟩

/-- Embedding of Go `strings.Split(s, "/")` for a one-character separator:
`splitOnSlash []` is `[[]]`, mirroring `strings.Split("", "/") = [""]`. -/
def splitOnSlash : List Char → List (List Char)
  | [] => [[]]
  | c :: cs =>
    let rest := splitOnSlash cs
    if c == '/' then [] :: rest
    else
      match rest with
      | h :: t => (c :: h) :: t
      | [] => [[c]]

/-- The `/`-separated segments of a trimmed path, as strings
(Go: `strings.Split(strings.Trim(s, "/"), "/")`). -/
def pathSegments (s : String) : List String :=
  (splitOnSlash (goTrimSlash s).data).map (fun l => ⟨l⟩)

/-- Embedding of `matchPath` (internal/gateway): pattern matching for request
paths. Exact equality; a trailing `/**` (and, for backward compatibility, a
trailing `/*`) matches the parent and any descendant; otherwise
segment-by-segment with `*` matching exactly one segment. -/
def matchPath (pattern path : String) : Bool :=
  if pattern == path then true
  else if goHasSuffix pattern "/**" then
    let stem := goTrimRightSlash (goTrimSuffix pattern "/**")
    let cleanPath := goTrimRightSlash path
    if stem == "" then true
    else cleanPath == stem || goHasPrefix cleanPath (stem ++ "/")
  else if goHasSuffix pattern "/*" then
    let stem := goTrimRightSlash (goTrimSuffix pattern "/*")
    let cleanPath := goTrimRightSlash path
    if stem == "" then true
    else cleanPath == stem || goHasPrefix cleanPath (stem ++ "/")
  else
    let patternParts := pathSegments pattern
    let pathParts := pathSegments path
    if patternParts.length != pathParts.length then false
    else (patternParts.zip pathParts).all fun pq => pq.1 == "*" || pq.1 == pq.2

/-- Embedding of `pathMatchesPaidRoutes` (internal/controller): decides
whether an ingress path is rewritten to the gateway backend. Strips a
trailing `(.*)` from the ingress path and `/**`, `/*` from each paid path,
then compares. -/
def pathMatchesPaidRoutes (ingressPath : String) (paidPaths : List String) : Bool :=
  let cleanIngress0 := goTrimRightSlash (goTrimSuffix ingressPath "(.*)")
  let cleanIngress := if cleanIngress0 == "" then "/" else cleanIngress0
  paidPaths.any fun paid =>
    let cleanPaid0 := goTrimRightSlash (goTrimSuffix (goTrimSuffix paid "/**") "/*")
    let cleanPaid := if cleanPaid0 == "" then "/" else cleanPaid0
    (cleanIngress == cleanPaid)
      || (cleanPaid != "/" && goHasPrefix cleanIngress (cleanPaid ++ "/"))
      || (ingressPath == paid)

/-! ## Gateway pipeline (internal/gateway)

Compiled route data, mirroring `internal/routestore`. A compiled condition's
`*regexp.Regexp` is used by the gateway only through `MatchString`, so it is
embedded as a `String → Bool` matcher. Request headers are embedded as the
total lookup `String → String` that Go's `http.Header.Get` provides (absent
headers read as `""`). -/

/-- Embedding of `routestore.CompiledCondition`. -/
structure CompiledCondition where
  header : String
  pattern : String → Bool
  action : String

/-- Embedding of `routestore.CompiledRule`. -/
structure CompiledRule where
  path : String
  price : String
  free : Bool
  mode : String
  conditions : List CompiledCondition

/-- Embedding of `routestore.CompiledRoute`. `backends` is the ordered
association list behind the Go map. -/
structure CompiledRoute where
  name : String
  ns : String
  wallet : String
  network : String
  facilitatorURL : String
  defaultPrice : String
  rules : List CompiledRule
  backends : List (String × String)

/-- Embedding of `evaluateConditions` (internal/gateway/conditions.go):
walks the conditions in order, skips those whose header is empty, returns
`action == "pay"` at the first regex match, and `true` when nothing
matched. -/
def evaluateConditions (hdr : String → String) : List CompiledCondition → Bool
  | [] => true
  | c :: cs =>
    let headerVal := hdr c.header
    if headerVal == "" then evaluateConditions hdr cs
    else if c.pattern headerVal then c.action == "pay"
    else evaluateConditions hdr cs

/-- Embedding of `getPaymentHeader`: `Payment-Signature` first, falling back
to `X-Payment`. -/
def getPaymentHeader (hdr : String → String) : String :=
  if hdr "Payment-Signature" != "" then hdr "Payment-Signature"
  else hdr "X-Payment"

/-- Embedding of `Handler.findMatchingRule`: first rule whose path pattern
matches the request path. -/
def findMatchingRule (path : String) : List CompiledRule → Option CompiledRule
  | [] => none
  | r :: rs => if matchPath r.path path then some r else findMatchingRule path rs

/-- The terminal response of one request through `Handler.ServeHTTP`, one
constructor per terminal node of the pipeline. `challenged`'s first field is
the metric label recorded on that branch (`payment_required`,
`verification_error`, `payment_invalid`); its second field is the price passed
to `writePaymentRequired`. `proxiedPaid` carries the response headers set
before proxying. -/
inductive Outcome where
  | notFound
  | proxiedFree (routeName : String)
  | proxiedConditionalFree (routeName : String)
  | challenged (label : String) (price : String)
  | proxiedPaid (headers : List (String × String))
  deriving DecidableEq

/-- Embedding of `Handler.ServeHTTP` (internal/gateway/payment.go), the
decision part: iterates the store snapshot, finds the first matching rule,
then takes the free / conditional-free / challenge / verify branch. The call
to `verifyPayment` (not defined anywhere in the tree; its result alone steers
the branch) is an oracle argument taking the payment header, the request URL
and the facilitator URL. On a valid payment the code sets the single response
header `Payment-Response: accepted` and proxies. -/
def serveHTTP (verify : String → String → String → Except String Bool)
    (path url : String) (hdr : String → String) : List CompiledRoute → Outcome
  | [] => .notFound
  | route :: rest =>
    match findMatchingRule path route.rules with
    | none => serveHTTP verify path url hdr rest
    | some rule =>
      if rule.free then .proxiedFree route.name
      else if rule.mode == "conditional" && rule.conditions.length > 0
          && !evaluateConditions hdr rule.conditions then
        .proxiedConditionalFree route.name
      else
        let paymentHeader := getPaymentHeader hdr
        if paymentHeader == "" then .challenged "payment_required" rule.price
        else
          match verify paymentHeader url route.facilitatorURL with
          | .error _ => .challenged "verification_error" rule.price
          | .ok false => .challenged "payment_invalid" rule.price
          | .ok true => .proxiedPaid [("Payment-Response", "accepted")]

/-! ## Price conversion (internal/gateway/payment.go)

`humanToAtomicUnits` parses its price with `big.Rat.SetString`. The model
below follows the decimal forms of that parser: an optionally signed
fraction `a/b` (split at the first `/`, zero denominator rejected), or an
optionally signed decimal mantissa with at most one `.` and an optional
`e`/`E` exponent with optional sign; the entire string must be consumed.
(The non-decimal `0b`/`0o`/`0x` bases, `_` digit separators and binary `p`
exponents that `big.Rat` additionally accepts are outside the model; no
claim exercises them.) -/

/-- Numeric value of a digit list (caller guarantees digits only). -/
def digitsToNat (l : List Char) : Nat :=
  l.foldl (fun a c => a * 10 + (c.toNat - '0'.toNat)) 0

/-- `some (sign, rest)`: strips one optional leading `+`/`-`. -/
def stripSign : List Char → Int × List Char
  | '+' :: cs => (1, cs)
  | '-' :: cs => (-1, cs)
  | cs => (1, cs)

/-- Parse an optionally signed, non-empty run of decimal digits. -/
def parseSignedDec (l : List Char) : Option Int :=
  let (sgn, rest) := stripSign l
  if rest ≠ [] ∧ rest.all (·.isDigit) then some (sgn * (digitsToNat rest : Int))
  else none

/-- Split a list at the first occurrence of a character satisfying `p`:
`(before, some after)` or `(l, none)`. -/
def splitFirst (p : Char → Bool) : List Char → List Char × Option (List Char)
  | [] => ([], none)
  | c :: cs =>
    if p c then ([], some cs)
    else
      let (b, a) := splitFirst p cs
      (c :: b, a)

/-- A rational `num / den` with `den ≠ 0` by construction, kept unreduced.
`big.Rat` stores a normalised representation, but the two observations the
source makes — `IsInt` and `Num().String()` of an integral value — are
representation-independent and are computed exactly below. -/
structure BigRat where
  num : Int
  den : Int
  deriving DecidableEq

/-- The rational value represented. -/
def BigRat.val (q : BigRat) : ℚ := (q.num : ℚ) / (q.den : ℚ)

/-- `big.Rat.IsInt`: the value is a whole number (`den ∣ num`, decided by
the exact-division test the normalised form makes trivial). -/
def BigRat.isInt (q : BigRat) : Bool := q.num % q.den == 0

/-- The float form of `big.Rat.SetString`: sign, decimal mantissa with an
optional `.`, optional decimal `e`/`E` exponent. Value:
`sign · mantissaDigits · 10 ^ (exponent - fractionLength)`. -/
def parseRatFloat (l : List Char) : Option BigRat :=
  let (sgn, rest) := stripSign l
  let (mant, expPart) := splitFirst (fun c => c == 'e' || c == 'E') rest
  let (intPart, fracOpt) := splitFirst (fun c => c == '.') mant
  let fracPart := fracOpt.getD []
  if intPart.all (·.isDigit) ∧ fracPart.all (·.isDigit)
      ∧ (intPart ≠ [] ∨ fracPart ≠ []) then
    let mantVal : Int := sgn * (digitsToNat (intPart ++ fracPart) : Int)
    let scale : Int → BigRat := fun e =>
      if 0 ≤ e then ⟨mantVal * (10 : Int) ^ e.toNat, 1⟩
      else ⟨mantVal, (10 : Int) ^ (-e).toNat⟩
    match expPart with
    | none => some (scale (-(fracPart.length : Int)))
    | some e =>
      match parseSignedDec e with
      | some ev => some (scale (ev - (fracPart.length : Int)))
      | none => none
  else none

/-- The fraction form `a/b` of `big.Rat.SetString`: split at the first `/`,
numerator and denominator each an optionally signed decimal integer, zero
denominator rejected. -/
def parseRatFraction (num den : List Char) : Option BigRat :=
  match parseSignedDec num, parseSignedDec den with
  | some n, some d => if d = 0 then none else some ⟨n, d⟩
  | _, _ => none

/-- Model of `big.Rat.SetString` on the decimal forms described above. -/
def ratSetString (s : String) : Option BigRat :=
  match splitFirst (fun c => c == '/') s.data with
  | (_, none) => parseRatFloat s.data
  | (num, some den) => parseRatFraction num den

/-- Embedding of `humanToAtomicUnits`: empty price errors; an unparsable
price errors; the price times `10 ^ decimals` must be a whole number
(`big.Rat.IsInt`), returned as its decimal string (`rat.Num().String()`;
the exact quotient below equals the normalised numerator). -/
def humanToAtomicUnits (price : String) (decimals : Nat) : Except String String :=
  if price == "" then .error "empty price"
  else
    match ratSetString price with
    | none => .error ("invalid price format: " ++ price)
    | some rat =>
      let scaled : BigRat := ⟨rat.num * (10 : Int) ^ decimals, rat.den⟩
      if scaled.isInt then .ok (toString (scaled.num / scaled.den))
      else .error ("price " ++ price ++ " has more decimal places than token supports")

/-- `true` iff the computation succeeded. -/
def exceptOk {ε α : Type} : Except ε α → Bool
  | .ok _ => true
  | .error _ => false

/-! ## Challenge construction and the 402 writer (internal/gateway/payment.go) -/

/-- Embedding of the `networkToChainID` map. -/
def networkToChainID (n : String) : Option String :=
  if n == "base" then some "eip155:8453"
  else if n == "base-sepolia" then some "eip155:84532"
  else if n == "avalanche" then some "eip155:43114"
  else if n == "avalanche-fuji" then some "eip155:43113"
  else if n == "solana" then some "solana:5eykt4UsFv8P8NJdTREpY1vzqKqZKvdp"
  else if n == "solana-devnet" then some "solana:EtWTRABZaYq6iMfeYKouRu166VU2xqa1"
  else none

/-- Embedding of the `networkAssets` map (Go map indexing yields the zero
value `""` on a missing key). -/
def networkAssets (n : String) : String :=
  if n == "base" then "0x833589fCD6eDb6E08f4c7C32D4f71b54bdA02913"
  else if n == "eip155:8453" then "0x833589fCD6eDb6E08f4c7C32D4f71b54bdA02913"
  else if n == "base-sepolia" then "0x036CbD53842c5426634e7929541eC2318f3dCF7e"
  else if n == "eip155:84532" then "0x036CbD53842c5426634e7929541eC2318f3dCF7e"
  else if n == "avalanche" then "0xB97EF9Ef8734C71904D8002F8b6Bc66Dd9c48a6E"
  else if n == "eip155:43114" then "0xB97EF9Ef8734C71904D8002F8b6Bc66Dd9c48a6E"
  else if n == "avalanche-fuji" then "0x5425890298aed601595a70AB815c96711a31Bc65"
  else if n == "eip155:43113" then "0x5425890298aed601595a70AB815c96711a31Bc65"
  else if n == "solana" then "EPjFWdd5AufqSSqeM2qN1xzybapC8G4wEGGkZwyTDt1v"
  else if n == "solana:5eykt4UsFv8P8NJdTREpY1vzqKqZKvdp" then "EPjFWdd5AufqSSqeM2qN1xzybapC8G4wEGGkZwyTDt1v"
  else if n == "solana-devnet" then "4zMMC9srt5Ri5X14GAgXhaHii3GnPAEERYPJgZJDncDU"
  else if n == "solana:EtWTRABZaYq6iMfeYKouRu166VU2xqa1" then "4zMMC9srt5Ri5X14GAgXhaHii3GnPAEERYPJgZJDncDU"
  else ""

/-- Embedding of `assetInfo`. -/
structure AssetInfo where
  name : String
  version : String
  decimals : Nat
  deriving DecidableEq

/-- Embedding of the `networkAssetInfo` map. -/
def networkAssetInfo (c : String) : Option AssetInfo :=
  if c == "eip155:8453" then some ⟨"USDC", "2", 6⟩
  else if c == "eip155:84532" then some ⟨"USDC", "2", 6⟩
  else if c == "eip155:43114" then some ⟨"USDC", "2", 6⟩
  else if c == "eip155:43113" then some ⟨"USDC", "2", 6⟩
  else if c == "solana:5eykt4UsFv8P8NJdTREpY1vzqKqZKvdp" then some ⟨"USDC", "2", 6⟩
  else if c == "solana:EtWTRABZaYq6iMfeYKouRu166VU2xqa1" then some ⟨"USDC", "2", 6⟩
  else none

/-- Embedding of `paymentResource`. -/
structure PaymentResource where
  url : String
  description : String
  mimeType : String
  deriving DecidableEq

/-- Embedding of `paymentExtra`. -/
structure PaymentExtra where
  name : String
  version : String
  deriving DecidableEq

/-- Embedding of `paymentAccept`. -/
structure PaymentAccept where
  scheme : String
  network : String
  amount : String
  payTo : String
  maxTimeoutSeconds : Nat
  asset : String
  extra : Option PaymentExtra
  deriving DecidableEq

/-- Embedding of `paymentRequirements` (the 402 body and header payload). -/
structure PaymentRequirements where
  x402Version : Nat
  resource : Option PaymentResource
  accepts : List PaymentAccept
  error : String
  deriving DecidableEq

/-- Embedding of `buildPaymentRequirements`: chain-id resolution with
pass-through for unknown networks, asset lookup, `{USDC, "2", 6}` fallback
metadata, price conversion, then the x402 v2 requirements object. -/
def buildPaymentRequirements (url : String) (route : CompiledRoute) (price : String) :
    Except String PaymentRequirements :=
  let network := route.network
  let chainID := (networkToChainID network).getD network
  let asset := networkAssets network
  let info := (networkAssetInfo chainID).getD ⟨"USDC", "2", 6⟩
  match humanToAtomicUnits price info.decimals with
  | .error e => .error ("convert price to atomic units: " ++ e)
  | .ok atomicAmount =>
    .ok
      { x402Version := 2
        resource := some
          { url := url
            description := "Payment required to access this resource"
            mimeType := "" }
        accepts :=
          [{ scheme := "exact"
             network := chainID
             amount := atomicAmount
             payTo := route.wallet
             maxTimeoutSeconds := 300
             asset := asset
             extra := some { name := info.name, version := info.version } }]
        error := "" }

/-! ## Base64 (encoding/base64, StdEncoding)

Bytes are `Nat`s below `256`. Encoding follows RFC 4648 with the standard
alphabet and `=` padding; decoding accepts well-formed padded input (the
source's `DecodeString` additionally skips newlines and, being non-strict,
ignores nonzero trailing padding bits — both irrelevant to round-tripping
encoder output). -/

/-- The standard base64 alphabet. -/
def b64Char (n : Nat) : Char :=
  if n < 26 then Char.ofNat ('A'.toNat + n)
  else if n < 52 then Char.ofNat ('a'.toNat + (n - 26))
  else if n < 62 then Char.ofNat ('0'.toNat + (n - 52))
  else if n = 62 then '+'
  else '/'

/-- Inverse of the alphabet: the 6-bit value of a base64 character. -/
def b64Val (c : Char) : Option Nat :=
  if 'A' ≤ c ∧ c ≤ 'Z' then some (c.toNat - 'A'.toNat)
  else if 'a' ≤ c ∧ c ≤ 'z' then some (c.toNat - 'a'.toNat + 26)
  else if '0' ≤ c ∧ c ≤ '9' then some (c.toNat - '0'.toNat + 52)
  else if c = '+' then some 62
  else if c = '/' then some 63
  else none

/-- `base64.StdEncoding.EncodeToString`: three bytes at a time into four
characters, `=`-padded final group. -/
def base64Encode : List Nat → List Char
  | [] => []
  | [a] => [b64Char (a / 4), b64Char (a % 4 * 16), '=', '=']
  | [a, b] => [b64Char (a / 4), b64Char (a % 4 * 16 + b / 16), b64Char (b % 16 * 4), '=']
  | a :: b :: c :: rest =>
    b64Char (a / 4) :: b64Char (a % 4 * 16 + b / 16) ::
      b64Char (b % 16 * 4 + c / 64) :: b64Char (c % 64) :: base64Encode rest

/-- `base64.StdEncoding.DecodeString`: four characters at a time, padding
only in a final group. -/
def base64Decode : List Char → Option (List Nat)
  | [] => some []
  | c1 :: c2 :: c3 :: c4 :: rest =>
    (match b64Val c1, b64Val c2 with
     | some v1, some v2 =>
       if c3 = '=' then
         if c4 = '=' ∧ rest = [] then some [v1 * 4 + v2 / 16] else none
       else
         match b64Val c3 with
         | some v3 =>
           if c4 = '=' then
             if rest = [] then some [v1 * 4 + v2 / 16, v2 % 16 * 16 + v3 / 4] else none
           else
             match b64Val c4 with
             | some v4 =>
               (base64Decode rest).map fun bs =>
                 (v1 * 4 + v2 / 16) :: (v2 % 16 * 16 + v3 / 4) :: (v3 % 4 * 64 + v4) :: bs
             | none => none
         | none => none
     | _, _ => none)
  | _ => none

/-- The bytes of a string (UTF-8 agrees with code points on ASCII; all
strings involved are ASCII). -/
def strBytes (s : String) : List Nat := s.data.map (·.toNat)

/-- An HTTP response as the gateway assembles one: status code, headers in
the order they are set, body bytes. -/
structure HttpResponse where
  status : Nat
  headers : List (String × String)
  body : List Nat

/-- First-match header lookup (Go `http.Header.Get`). -/
def lookupHeader (hs : List (String × String)) (k : String) : Option String :=
  (hs.find? (fun h => h.1 == k)).map (·.2)

/-- Embedding of `writePaymentRequired`: build the requirements (a build
failure is answered with a plain 500), marshal them once — the marshaller,
`json.Marshal`, is an oracle argument producing bytes — and emit the 402
with `Content-Type: application/json`, the `PAYMENT-REQUIRED` header holding
the base64 of those bytes, and the same bytes as body. -/
def writePaymentRequired (marshal : PaymentRequirements → List Nat)
    (url : String) (route : CompiledRoute) (price : String) : HttpResponse :=
  match buildPaymentRequirements url route price with
  | .error _ => { status := 500, headers := [], body := [] }
  | .ok reqs =>
    let respJSON := marshal reqs
    { status := 402
      headers :=
        [("Content-Type", "application/json"),
         ("PAYMENT-REQUIRED", ⟨base64Encode respJSON⟩)]
      body := respJSON }

/-! ## Reconciler (internal/controller)

The declarative input mirrors `api/v1alpha1.X402RouteSpec` together with the
object's identity. `regexp.Compile` is an oracle argument
`String → Option (String → Bool)` (`none` = compile failure); the reconciler
uses a compiled regex only through `MatchString`. -/

/-- Embedding of `v1alpha1.PaymentCondition`. -/
structure PaymentCondition where
  header : String
  pattern : String
  action : String

/-- Embedding of `v1alpha1.RouteRule`. -/
structure RouteRule where
  path : String
  price : String
  free : Bool
  mode : String
  conditions : List PaymentCondition

/-- Embedding of an `X402Route` object: identity plus
`v1alpha1.X402RouteSpec`'s payment and routes blocks. -/
structure RouteSpec where
  name : String
  ns : String
  wallet : String
  network : String
  defaultPrice : String
  facilitatorURL : String
  routes : List RouteRule

/-- The condition-compiling loop of `compileRoute`: conditions in order,
first `regexp.Compile` failure aborts. -/
def compileConditions (compileRegex : String → Option (String → Bool)) :
    List PaymentCondition → Except String (List CompiledCondition)
  | [] => .ok []
  | c :: cs =>
    match compileRegex c.pattern with
    | none => .error ("compile condition pattern " ++ c.pattern)
    | some re =>
      match compileConditions compileRegex cs with
      | .error e => .error e
      | .ok rest => .ok ({ header := c.header, pattern := re, action := c.action } :: rest)

/-- The rule loop of `compileRoute`: default the mode to `all-pay`, resolve
the effective price (rule price, else the route default), compile the
conditions; the first failure aborts. -/
def compileRules (compileRegex : String → Option (String → Bool)) (defaultPrice : String) :
    List RouteRule → Except String (List CompiledRule)
  | [] => .ok []
  | rule :: rs =>
    let mode := if rule.mode == "" then "all-pay" else rule.mode
    let price := if rule.price != "" then rule.price else defaultPrice
    match compileConditions compileRegex rule.conditions with
    | .error e => .error e
    | .ok conds =>
      match compileRules compileRegex defaultPrice rs with
      | .error e => .error e
      | .ok rest =>
        .ok ({ path := rule.path, price := price, free := rule.free,
               mode := mode, conditions := conds } :: rest)

/-- Embedding of `X402RouteReconciler.compileRoute`: facilitator URL default,
then the compiled route. No validation beyond regex compilation is
performed — in particular neither the facilitator URL nor any price is
checked. -/
def compileRoute (compileRegex : String → Option (String → Bool))
    (route : RouteSpec) (backends : List (String × String)) :
    Except String CompiledRoute :=
  let facilitatorURL :=
    if route.facilitatorURL == "" then "https://x402.org/facilitator"
    else route.facilitatorURL
  match compileRules compileRegex route.defaultPrice route.routes with
  | .error e => .error e
  | .ok rules =>
    .ok { name := route.name, ns := route.ns, wallet := route.wallet,
          network := route.network, facilitatorURL := facilitatorURL,
          defaultPrice := route.defaultPrice, rules := rules,
          backends := backends }

/-- The externally visible effects of one pass of `Reconcile` after the
ingress fetch: whether `Store.Set` ran and with what, whether the ingress
was patched, the conditions written by `setCondition`
(type, status, reason), the `(ingressPatched, ready, activeRoutes)` written
by `updateStatus`, and whether an error was returned. -/
structure ReconcileResult where
  storeSet : Option CompiledRoute
  ingressPatched : Bool
  conditionsSet : List (String × Bool × String)
  statusUpdate : Bool × Bool × Nat
  err : Bool

/-- Embedding of the steps 2–5 of `X402RouteReconciler.Reconcile` (the route
and ingress were fetched): compile — on failure set
`Ready = False, reason=CompileError` and return the error without touching
the store or the ingress; otherwise publish to the store, then the
ExternalName service and the ingress patch (cluster calls whose success is
given by the oracles `svcOk`, `patchOk`), then conditions and status. -/
def reconcile (compileRegex : String → Option (String → Bool)) (route : RouteSpec)
    (backends : List (String × String)) (svcOk patchOk : Bool) : ReconcileResult :=
  match compileRoute compileRegex route backends with
  | .error _ =>
    { storeSet := none, ingressPatched := false
      conditionsSet := [("Ready", false, "CompileError")]
      statusUpdate := (false, false, 0), err := true }
  | .ok compiled =>
    if !svcOk then
      { storeSet := some compiled, ingressPatched := false
        conditionsSet := [("ExternalServiceReady", false, "ServiceError")]
        statusUpdate := (false, false, compiled.rules.length), err := true }
    else if !patchOk then
      { storeSet := some compiled, ingressPatched := false
        conditionsSet := [("IngressPatched", false, "PatchError")]
        statusUpdate := (false, false, compiled.rules.length), err := true }
    else
      { storeSet := some compiled, ingressPatched := true
        conditionsSet :=
          [("IngressPatched", true, "Reconciled"), ("Ready", true, "Reconciled")]
        statusUpdate := (true, true, compiled.rules.length), err := false }

/-! ## Theorems settling the claims -/

/-- Claim C1, evaluated on the code: `pathMatchesPaidRoutes` compares
`HasPrefix(cleanIngress, cleanPaid + "/")`, i.e. it redirects an ingress path
lying UNDER a paid prefix, not an ingress prefix that is a parent of the paid
prefix. Consequently the catch-all ingress `/` does NOT cover `/api/*` and
`/api` does NOT cover `/api/v1/*` — both `false`, where the claim (and the
repository's own `TestPathMatchesPaidRoutes`) require `true`. The `/web` and
`/api(.*)` cases behave as claimed. -/
theorem c1_pathMatchesPaidRoutes_eval :
    pathMatchesPaidRoutes "/" ["/api/*"] = false
  ∧ pathMatchesPaidRoutes "/api" ["/api/v1/*"] = false
  ∧ pathMatchesPaidRoutes "/" ["/data"] = false
  ∧ pathMatchesPaidRoutes "/web" ["/api/*"] = false
  ∧ pathMatchesPaidRoutes "/api(.*)" ["/api/*"] = true
  ∧ pathMatchesPaidRoutes "/api" ["/api/*"] = true := by
  decide

/-- Claim C5 counterexample: the claim states `match("/a/*", "/a/b/c") = false`,
but a trailing `/*` is handled by the same any-depth branch as `/**`
(the code comment calls it backward compat), so the code returns `true`. -/
theorem c5_matchPath_counterexample : matchPath "/a/*" "/a/b/c" = true := by
  decide

/-- Claim C5 as amended: `match("/a/*", "/a/b") = true`,
`match("/a/*", "/a/b/c") = true` (a trailing `/*` matches the parent and any
descendant, exactly like `/**`), `match("/a/**", "/a/b/c") = true`; the
exact-segment-count semantics of `*` hold only when the pattern does not end
in `/*` or `/**`: then a non-equal pattern matches iff the segment counts
agree and every non-`*` segment equals the path's segment literally. -/
theorem c5_matchPath_amended :
    matchPath "/a/*" "/a/b" = true
  ∧ matchPath "/a/*" "/a/b/c" = true
  ∧ matchPath "/a/**" "/a/b/c" = true
  ∧ matchPath "/a/*/c" "/a/b/c" = true
  ∧ matchPath "/a/*/c" "/a/b/c/d" = false
  ∧ (∀ pattern path : String,
      goHasSuffix pattern "/**" = false → goHasSuffix pattern "/*" = false →
      matchPath pattern path =
        (pattern == path ||
          ((pathSegments pattern).length == (pathSegments path).length &&
            ((pathSegments pattern).zip (pathSegments path)).all
              fun pq => pq.1 == "*" || pq.1 == pq.2))) := by
  refine ⟨by decide, by decide, by decide, by decide, by decide, ?_⟩
  intro pattern path h1 h2
  simp only [matchPath, h1, h2]
  cases hpq : pattern == path with
  | true => simp [hpq]
  | false =>
    simp only [hpq, Bool.false_eq_true, if_false, Bool.false_or]
    cases hl : (pathSegments pattern).length == (pathSegments path).length with
    | true => simp [bne, hl]
    | false => simp [bne, hl]

/-- Closed instance of the amended C5 law at a concrete non-tail single-`*`
pattern, discharging its suffix hypotheses. -/
theorem c5_matchPath_amended_witness : matchPath "/a/*/c" "/a/x/c" = true :=
  c5_matchPath_amended.2.2.2.2.2 "/a/*/c" "/a/x/c" (by decide) (by decide)

/-- Claim C9: the concrete atomic-unit conversions, and the error cases —
empty input, input `big.Rat` cannot parse, and input whose value scaled by
`10 ^ decimals` is not a whole number. -/
theorem c9_humanToAtomicUnits :
    humanToAtomicUnits "0.001" 6 = .ok "1000"
  ∧ humanToAtomicUnits "0.01" 6 = .ok "10000"
  ∧ humanToAtomicUnits "1" 6 = .ok "1000000"
  ∧ humanToAtomicUnits "0.000001" 6 = .ok "1"
  ∧ humanToAtomicUnits "1.23" 2 = .ok "123"
  ∧ (∀ d : Nat, exceptOk (humanToAtomicUnits "" d) = false)
  ∧ (∀ (s : String) (d : Nat), ratSetString s = none →
      exceptOk (humanToAtomicUnits s d) = false)
  ∧ (∀ (s : String) (d : Nat) (q : BigRat), ratSetString s = some q →
      BigRat.isInt ⟨q.num * (10 : Int) ^ d, q.den⟩ = false →
      exceptOk (humanToAtomicUnits s d) = false) := by
  refine ⟨rfl, rfl, rfl, rfl, rfl, fun d => rfl, ?_, ?_⟩
  · intro s d h
    unfold humanToAtomicUnits
    cases hs : s == "" with
    | true => simp [exceptOk]
    | false => simp [h, exceptOk]
  · intro s d q hq hint
    unfold humanToAtomicUnits
    cases hs : s == "" with
    | true => simp [exceptOk]
    | false => simp [hq, hint, exceptOk]

/-- Closed instances of the C9 error cases: a non-numeric price and an
excess-precision price, with the hypotheses discharged concretely. -/
theorem c9_humanToAtomicUnits_witness :
    exceptOk (humanToAtomicUnits "abc" 6) = false
  ∧ exceptOk (humanToAtomicUnits "0.0000001" 6) = false :=
  ⟨c9_humanToAtomicUnits.2.2.2.2.2.2.1 "abc" 6 rfl,
   c9_humanToAtomicUnits.2.2.2.2.2.2.2 "0.0000001" 6 ⟨1, 10000000⟩ rfl rfl⟩

/-- All asset metadata carries 6 decimals, and the fallback for unknown
chains is also 6 decimals. -/
theorem assetInfo_decimals_eq_six (c : String) :
    ((networkAssetInfo c).getD ⟨"USDC", "2", 6⟩).decimals = 6 := by
  unfold networkAssetInfo
  repeat' split
  all_goals rfl

/-- Claim C10: `humanToAtomicUnits` accepts everything `big.Rat` parses, not
only non-negative decimals — `"-0.001"` yields `"-1000"` and the fraction
`"1/2"` yields `"500000"` — and `buildPaymentRequirements` then succeeds for
every route and request URL, emitting a challenge whose single accept carries
that (possibly negative) atomic amount; `compileRoute` passes such a price
through to the published rule unvalidated. -/
theorem c10_bigRat_passthrough :
    humanToAtomicUnits "-0.001" 6 = .ok "-1000"
  ∧ humanToAtomicUnits "1/2" 6 = .ok "500000"
  ∧ (∀ (url : String) (route : CompiledRoute),
      (buildPaymentRequirements url route "-0.001").map
        (fun r => r.accepts.map (·.amount)) = .ok ["-1000"])
  ∧ (∀ (url : String) (route : CompiledRoute),
      (buildPaymentRequirements url route "1/2").map
        (fun r => r.accepts.map (·.amount)) = .ok ["500000"])
  ∧ (compileRoute (fun _ => none)
      { name := "r", ns := "default", wallet := "0xW", network := "base-sepolia",
        defaultPrice := "0.001", facilitatorURL := "",
        routes := [{ path := "/api", price := "-0.001", free := false,
                     mode := "", conditions := [] }] }
      []).map (fun c => c.rules.map (·.price)) = .ok ["-0.001"] := by
  refine ⟨rfl, rfl, ?_, ?_, rfl⟩
  · intro url route
    simp only [buildPaymentRequirements, assetInfo_decimals_eq_six]
    rfl
  · intro url route
    simp only [buildPaymentRequirements, assetInfo_decimals_eq_six]
    rfl

/-- Claim C4 counterexample: `compileRoute` performs no price validation, so
reconciliation publishes a compiled route whose only rule is not free and
whose effective price `"abc"` fails atomic-unit conversion — the claimed
invariant is violated at this input. -/
theorem c4_price_invariant_counterexample :
    ¬ (∀ (compileRegex : String → Option (String → Bool)) (spec : RouteSpec)
        (backends : List (String × String)) (compiled : CompiledRoute),
        compileRoute compileRegex spec backends = .ok compiled →
        ∀ r ∈ compiled.rules, r.free = true ∨ exceptOk (humanToAtomicUnits r.price 6) = true) := by
  intro h
  have := h (fun _ => none)
    { name := "r", ns := "default", wallet := "0xW", network := "base-sepolia",
      defaultPrice := "abc", facilitatorURL := "",
      routes := [{ path := "/api", price := "", free := false, mode := "", conditions := [] }] }
    []
    { name := "r", ns := "default", wallet := "0xW", network := "base-sepolia",
      facilitatorURL := "https://x402.org/facilitator", defaultPrice := "abc",
      rules := [{ path := "/api", price := "abc", free := false,
                  mode := "all-pay", conditions := [] }],
      backends := [] }
    rfl
    { path := "/api", price := "abc", free := false, mode := "all-pay", conditions := [] }
    (by simp)
  rcases this with hfree | hok
  · exact absurd hfree (by decide)
  · exact absurd hok (by decide)

/-- Claim C4 as amended: each compiled rule's effective price is the rule's
price when non-empty, else the route's default price, with path and free
flag copied verbatim; no decimal validation happens at compile time, so a
non-free rule's conversion may fail at request time instead. -/
theorem c4_price_invariant_amended :
    ∀ (compileRegex : String → Option (String → Bool)) (dp : String)
      (rules : List RouteRule) (compiled : List CompiledRule),
      compileRules compileRegex dp rules = .ok compiled →
      compiled.map (fun r => (r.path, r.price, r.free)) =
        rules.map (fun r => (r.path, (if r.price != "" then r.price else dp), r.free)) := by
  intro compileRegex dp rules
  induction rules with
  | nil =>
    intro compiled h
    simp only [compileRules] at h
    cases h
    rfl
  | cons r rs ih =>
    intro compiled h
    simp only [compileRules] at h
    cases hc : compileConditions compileRegex r.conditions with
    | error e => rw [hc] at h; cases h
    | ok conds =>
      rw [hc] at h
      cases hr : compileRules compileRegex dp rs with
      | error e => rw [hr] at h; cases h
      | ok rest =>
        rw [hr] at h
        cases h
        simp only [List.map_cons, List.cons.injEq]
        exact ⟨by simp, ih rest hr⟩

/-- Closed instance of the amended C4 statement on a two-rule spec (one
price override, one default fallback), hypotheses discharged concretely. -/
theorem c4_price_invariant_amended_witness :
    ([{ path := "/a", price := "0.001", free := false, mode := "all-pay", conditions := [] },
      { path := "/b", price := "0.5", free := true, mode := "all-pay", conditions := [] }]
        : List CompiledRule).map (fun r => (r.path, r.price, r.free)) =
      ([{ path := "/a", price := "", free := false, mode := "", conditions := [] },
        { path := "/b", price := "0.5", free := true, mode := "", conditions := [] }]
          : List RouteRule).map
        (fun r => (r.path, (if r.price != "" then r.price else "0.001"), r.free)) :=
  c4_price_invariant_amended (fun _ => none) "0.001" _ _ rfl

/-- A single failing condition pattern makes the condition loop abort with an
error. -/
theorem compileConditions_error_of_mem
    (compileRegex : String → Option (String → Bool)) :
    ∀ (cs : List PaymentCondition) (c : PaymentCondition),
      c ∈ cs → compileRegex c.pattern = none →
      ∃ e, compileConditions compileRegex cs = .error e := by
  intro cs
  induction cs with
  | nil => intro c hc; cases hc
  | cons c' cs' ih =>
    intro c hc hnone
    rcases List.mem_cons.mp hc with rfl | hmem
    · exact ⟨"compile condition pattern " ++ c.pattern,
        by simp only [compileConditions, hnone]⟩
    · cases hp : compileRegex c'.pattern with
      | none =>
        exact ⟨"compile condition pattern " ++ c'.pattern,
          by simp only [compileConditions, hp]⟩
      | some re =>
        obtain ⟨e, he⟩ := ih c hmem hnone
        exact ⟨e, by simp only [compileConditions, hp, he]⟩

/-- A single failing condition pattern inside any rule makes the rule loop
abort with an error. -/
theorem compileRules_error_of_mem
    (compileRegex : String → Option (String → Bool)) (dp : String) :
    ∀ (rs : List RouteRule) (r : RouteRule) (c : PaymentCondition),
      r ∈ rs → c ∈ r.conditions → compileRegex c.pattern = none →
      ∃ e, compileRules compileRegex dp rs = .error e := by
  intro rs
  induction rs with
  | nil => intro r c hr; cases hr
  | cons r' rs' ih =>
    intro r c hr hc hnone
    rcases List.mem_cons.mp hr with rfl | hmem
    · obtain ⟨e, he⟩ := compileConditions_error_of_mem compileRegex r.conditions c hc hnone
      exact ⟨e, by simp only [compileRules, he]⟩
    · cases hcc : compileConditions compileRegex r'.conditions with
      | error e => exact ⟨e, by simp only [compileRules, hcc]⟩
      | ok conds =>
        obtain ⟨e, he⟩ := ih r c hmem hc hnone
        exact ⟨e, by simp only [compileRules, hcc, he]⟩

/-- Claim C6: when any declared condition's regex fails to compile,
reconciliation stops at the compile step — `Ready = False` with reason
`CompileError`, an error is returned, `Store.Set` never runs (no partial
publish) and the ingress is not patched — for every spec, backend map and
cluster-call oracle. -/
theorem c6_compile_failure_atomic :
    ∀ (compileRegex : String → Option (String → Bool)) (spec : RouteSpec)
      (backends : List (String × String)) (svcOk patchOk : Bool)
      (r : RouteRule) (c : PaymentCondition),
      r ∈ spec.routes → c ∈ r.conditions → compileRegex c.pattern = none →
      reconcile compileRegex spec backends svcOk patchOk =
        { storeSet := none, ingressPatched := false
          conditionsSet := [("Ready", false, "CompileError")]
          statusUpdate := (false, false, 0), err := true } := by
  intro compileRegex spec backends svcOk patchOk r c hr hc hnone
  obtain ⟨e, he⟩ := compileRules_error_of_mem compileRegex spec.defaultPrice
    spec.routes r c hr hc hnone
  simp only [reconcile, compileRoute, he]

/-- Closed instance of C6 at the spec of the invalid-regex scenario
(condition pattern `"("`), hypotheses discharged concretely. -/
theorem c6_compile_failure_atomic_witness :
    reconcile (fun s => if s == "(" then none else some (fun _ => true))
      { name := "r", ns := "default", wallet := "0xW", network := "base-sepolia",
        defaultPrice := "0.001", facilitatorURL := "",
        routes := [{ path := "/api", price := "", free := false, mode := "conditional",
                     conditions := [{ header := "X", pattern := "(", action := "pay" }] }] }
      [] true true =
      { storeSet := none, ingressPatched := false
        conditionsSet := [("Ready", false, "CompileError")]
        statusUpdate := (false, false, 0), err := true } :=
  c6_compile_failure_atomic _ _ _ true true
    { path := "/api", price := "", free := false, mode := "conditional",
      conditions := [{ header := "X", pattern := "(", action := "pay" }] }
    { header := "X", pattern := "(", action := "pay" }
    (by simp) (by simp) rfl

/-- Claim C3, evaluated on the code at the failing input: `Reconcile` never
calls `validateFacilitatorURL` (defined and tested in the controller package
but invoked nowhere), so a spec whose facilitator URL is the forbidden
`http://localhost:8080` compiles, is published to the store carrying that
URL, the ingress is patched, and no error or False condition is produced. -/
theorem c3_ssrf_not_enforced_eval :
    (reconcile (fun _ => none)
      { name := "r", ns := "default", wallet := "0xW", network := "base-sepolia",
        defaultPrice := "0.001", facilitatorURL := "http://localhost:8080",
        routes := [{ path := "/api", price := "", free := false, mode := "", conditions := [] }] }
      [] true true).storeSet.map (·.facilitatorURL) = some "http://localhost:8080"
  ∧ (reconcile (fun _ => none)
      { name := "r", ns := "default", wallet := "0xW", network := "base-sepolia",
        defaultPrice := "0.001", facilitatorURL := "http://localhost:8080",
        routes := [{ path := "/api", price := "", free := false, mode := "", conditions := [] }] }
      [] true true).ingressPatched = true
  ∧ (reconcile (fun _ => none)
      { name := "r", ns := "default", wallet := "0xW", network := "base-sepolia",
        defaultPrice := "0.001", facilitatorURL := "http://localhost:8080",
        routes := [{ path := "/api", price := "", free := false, mode := "", conditions := [] }] }
      [] true true).err = false
  ∧ (reconcile (fun _ => none)
      { name := "r", ns := "default", wallet := "0xW", network := "base-sepolia",
        defaultPrice := "0.001", facilitatorURL := "http://localhost:8080",
        routes := [{ path := "/api", price := "", free := false, mode := "", conditions := [] }] }
      [] true true).conditionsSet =
      [("IngressPatched", true, "Reconciled"), ("Ready", true, "Reconciled")] := by
  refine ⟨rfl, rfl, rfl, rfl⟩

/-- Claim C2, evaluated on the code at the failing input: on a paid path with
a payment header the facilitator verifies, `ServeHTTP` sets the single
response header `Payment-Response: accepted` and proxies — it never calls
`/settle` and the header value is not the base64 of the settle-response JSON
the claim (and the repository's helm README and test client) require. -/
theorem c2_settlement_envelope_eval :
    serveHTTP (fun _ _ _ => .ok true) "/api/hello" "/api/hello"
        (fun h => if h == "Payment-Signature" then "c2ln" else "")
        [{ name := "r", ns := "default", wallet := "0xW", network := "base-sepolia",
           facilitatorURL := "https://facilitator.example", defaultPrice := "0.001",
           rules := [{ path := "/api/*", price := "0.001", free := false,
                       mode := "all-pay", conditions := [] }],
           backends := [] }]
      = .proxiedPaid [("Payment-Response", "accepted")]
  ∧ ("accepted" : String) ≠
      ⟨base64Encode (strBytes
        "\x7b\"success\":true,\"transaction\":\"0xtx\",\"network\":\"eip155:84532\"\x7d")⟩ := by
  refine ⟨by decide, by decide⟩

/-- Claim C8: condition evaluation and its safe default. In order: the empty
condition list yields `true` (payment required); a condition whose header is
absent is skipped; the first condition whose regex matches decides the result
as `action == "pay"`; a non-matching condition is skipped; if every condition
is skipped or fails to match, the result is `true`; and at the pipeline
level, a non-free conditional rule with an empty condition list falls through
to the paid branch, so a request without a payment header is challenged. -/
theorem c8_evaluateConditions :
    (∀ hdr : String → String, evaluateConditions hdr [] = true)
  ∧ (∀ (hdr : String → String) (c : CompiledCondition) (cs : List CompiledCondition),
      hdr c.header = "" →
      evaluateConditions hdr (c :: cs) = evaluateConditions hdr cs)
  ∧ (∀ (hdr : String → String) (c : CompiledCondition) (cs : List CompiledCondition),
      hdr c.header ≠ "" → c.pattern (hdr c.header) = true →
      evaluateConditions hdr (c :: cs) = (c.action == "pay"))
  ∧ (∀ (hdr : String → String) (c : CompiledCondition) (cs : List CompiledCondition),
      hdr c.header ≠ "" → c.pattern (hdr c.header) = false →
      evaluateConditions hdr (c :: cs) = evaluateConditions hdr cs)
  ∧ (∀ (hdr : String → String) (cs : List CompiledCondition),
      (∀ c ∈ cs, hdr c.header = "" ∨ c.pattern (hdr c.header) = false) →
      evaluateConditions hdr cs = true)
  ∧ (∀ (verify : String → String → String → Except String Bool) (pth url : String)
      (hdr : String → String) (route : CompiledRoute) (rule : CompiledRule)
      (rest : List CompiledRoute),
      findMatchingRule pth route.rules = some rule →
      rule.free = false → rule.mode = "conditional" → rule.conditions = [] →
      getPaymentHeader hdr = "" →
      serveHTTP verify pth url hdr (route :: rest) =
        .challenged "payment_required" rule.price) := by
  refine ⟨fun hdr => rfl, ?_, ?_, ?_, ?_, ?_⟩
  · intro hdr c cs h
    simp [evaluateConditions, h]
  · intro hdr c cs h hp
    simp [evaluateConditions, h, hp]
  · intro hdr c cs h hp
    simp [evaluateConditions, h, hp]
  · intro hdr cs
    induction cs with
    | nil => intro _; rfl
    | cons c cs' ih =>
      intro h
      rcases h c (List.mem_cons_self c cs') with hc | hc
      · simp [evaluateConditions, hc]
        exact ih fun c' hc' => h c' (List.mem_cons_of_mem c hc')
      · by_cases hv : hdr c.header = ""
        · simp [evaluateConditions, hv]
          exact ih fun c' hc' => h c' (List.mem_cons_of_mem c hc')
        · simp [evaluateConditions, hv, hc]
          exact ih fun c' hc' => h c' (List.mem_cons_of_mem c hc')
  · intro verify pth url hdr route rule rest hm hfree hmode hconds hph
    simp [serveHTTP, hm, hfree, hmode, hconds, hph]

/-- Closed C8 instance: a matching `pay` condition on a bot user agent
requires payment, and an unconditioned conditional rule challenges a
header-less request; all hypotheses discharged concretely. -/
theorem c8_evaluateConditions_witness :
    evaluateConditions (fun h => if h == "User-Agent" then "my-bot/1.0" else "")
      [{ header := "User-Agent", pattern := fun v => v == "my-bot/1.0", action := "pay" }]
      = true
  ∧ serveHTTP (fun _ _ _ => .ok true) "/api" "/api" (fun _ => "")
      [{ name := "r", ns := "default", wallet := "0xW", network := "base-sepolia",
         facilitatorURL := "https://x402.org/facilitator", defaultPrice := "0.001",
         rules := [{ path := "/api", price := "0.001", free := false,
                     mode := "conditional", conditions := [] }],
         backends := [] }]
      = .challenged "payment_required" "0.001" :=
  ⟨c8_evaluateConditions.2.2.1
      (fun h => if h == "User-Agent" then "my-bot/1.0" else "")
      { header := "User-Agent", pattern := fun v => v == "my-bot/1.0", action := "pay" }
      [] (by decide) rfl,
   c8_evaluateConditions.2.2.2.2.2 (fun _ _ _ => .ok true) "/api" "/api" (fun _ => "")
      { name := "r", ns := "default", wallet := "0xW", network := "base-sepolia",
        facilitatorURL := "https://x402.org/facilitator", defaultPrice := "0.001",
        rules := [{ path := "/api", price := "0.001", free := false,
                    mode := "conditional", conditions := [] }],
        backends := [] }
      { path := "/api", price := "0.001", free := false,
        mode := "conditional", conditions := [] }
      [] rfl rfl rfl rfl rfl⟩

/-- The alphabet map is inverted exactly by `b64Val` on 6-bit values. -/
theorem b64Val_b64Char : ∀ n, n < 64 → b64Val (b64Char n) = some n := by decide

/-- No alphabet character is the padding character. -/
theorem b64Char_ne_pad : ∀ n, n < 64 → b64Char n ≠ '=' := by decide

/-- Decoding inverts encoding on byte lists. -/
theorem base64_roundtrip :
    ∀ (bs : List Nat), (∀ b ∈ bs, b < 256) → base64Decode (base64Encode bs) = some bs
  | [], _ => rfl
  | [a], h => by
    have ha : a < 256 := h a (by simp)
    simp only [base64Encode, base64Decode,
      b64Val_b64Char (a / 4) (by omega), b64Val_b64Char (a % 4 * 16) (by omega)]
    simp
    all_goals omega
  | [a, b], h => by
    have ha : a < 256 := h a (by simp)
    have hb : b < 256 := h b (by simp)
    simp only [base64Encode, base64Decode,
      b64Val_b64Char (a / 4) (by omega), b64Val_b64Char (a % 4 * 16 + b / 16) (by omega),
      b64Val_b64Char (b % 16 * 4) (by omega)]
    rw [if_neg (b64Char_ne_pad (b % 16 * 4) (by omega))]
    simp
    all_goals omega
  | [a, b, c], h => by
    have ha : a < 256 := h a (by simp)
    have hb : b < 256 := h b (by simp)
    have hc : c < 256 := h c (by simp)
    simp only [base64Encode, base64Decode,
      b64Val_b64Char (a / 4) (by omega), b64Val_b64Char (a % 4 * 16 + b / 16) (by omega),
      b64Val_b64Char (b % 16 * 4 + c / 64) (by omega), b64Val_b64Char (c % 64) (by omega)]
    rw [if_neg (b64Char_ne_pad (b % 16 * 4 + c / 64) (by omega)),
      if_neg (b64Char_ne_pad (c % 64) (by omega))]
    simp
    all_goals omega
  | a :: b :: c :: d :: rest, h => by
    have ha : a < 256 := h a (by simp)
    have hb : b < 256 := h b (by simp)
    have hc : c < 256 := h c (by simp)
    have ih := base64_roundtrip (d :: rest) fun x hx => h x (by simp at hx ⊢; tauto)
    simp only [base64Encode, base64Decode,
      b64Val_b64Char (a / 4) (by omega), b64Val_b64Char (a % 4 * 16 + b / 16) (by omega),
      b64Val_b64Char (b % 16 * 4 + c / 64) (by omega), b64Val_b64Char (c % 64) (by omega)]
    rw [if_neg (b64Char_ne_pad (b % 16 * 4 + c / 64) (by omega)),
      if_neg (b64Char_ne_pad (c % 64) (by omega)), ih]
    simp
    all_goals omega

/-- Claim C7, challenge round-trip: whenever the requirements build succeeds,
`writePaymentRequired` responds with status 402, `Content-Type:
application/json`, and a `PAYMENT-REQUIRED` header whose base64 decoding is
exactly the response body — the one marshalled challenge, byte for byte. -/
theorem c7_challenge_roundtrip :
    ∀ (marshal : PaymentRequirements → List Nat) (url : String)
      (route : CompiledRoute) (price : String) (reqs : PaymentRequirements),
      buildPaymentRequirements url route price = .ok reqs →
      (∀ b ∈ marshal reqs, b < 256) →
      (writePaymentRequired marshal url route price).status = 402
    ∧ lookupHeader (writePaymentRequired marshal url route price).headers "Content-Type"
        = some "application/json"
    ∧ ∃ hv, lookupHeader (writePaymentRequired marshal url route price).headers
          "PAYMENT-REQUIRED" = some hv
        ∧ base64Decode hv.data = some (writePaymentRequired marshal url route price).body
        ∧ (writePaymentRequired marshal url route price).body = marshal reqs := by
  intro marshal url route price reqs hb hbytes
  have hw : writePaymentRequired marshal url route price =
      { status := 402
        headers := [("Content-Type", "application/json"),
                    ("PAYMENT-REQUIRED", ⟨base64Encode (marshal reqs)⟩)]
        body := marshal reqs } := by
    simp only [writePaymentRequired, hb]
  rw [hw]
  exact ⟨rfl, rfl, ⟨base64Encode (marshal reqs)⟩, rfl,
    base64_roundtrip (marshal reqs) hbytes, rfl⟩

/-- Closed C7 instance: a concrete route, price and marshaller, with the
build-success and byte-bound hypotheses discharged concretely. -/
theorem c7_challenge_roundtrip_witness :
    (writePaymentRequired (fun _ => strBytes "X") "/api/test"
      { name := "r", ns := "default", wallet := "0xW", network := "base-sepolia",
        facilitatorURL := "https://x402.org/facilitator", defaultPrice := "0.01",
        rules := [], backends := [] } "0.01").status = 402
  ∧ lookupHeader (writePaymentRequired (fun _ => strBytes "X") "/api/test"
      { name := "r", ns := "default", wallet := "0xW", network := "base-sepolia",
        facilitatorURL := "https://x402.org/facilitator", defaultPrice := "0.01",
        rules := [], backends := [] } "0.01").headers "Content-Type"
      = some "application/json"
  ∧ ∃ hv, lookupHeader (writePaymentRequired (fun _ => strBytes "X") "/api/test"
        { name := "r", ns := "default", wallet := "0xW", network := "base-sepolia",
          facilitatorURL := "https://x402.org/facilitator", defaultPrice := "0.01",
          rules := [], backends := [] } "0.01").headers "PAYMENT-REQUIRED" = some hv
      ∧ base64Decode hv.data = some (writePaymentRequired (fun _ => strBytes "X") "/api/test"
          { name := "r", ns := "default", wallet := "0xW", network := "base-sepolia",
            facilitatorURL := "https://x402.org/facilitator", defaultPrice := "0.01",
            rules := [], backends := [] } "0.01").body
      ∧ (writePaymentRequired (fun _ => strBytes "X") "/api/test"
          { name := "r", ns := "default", wallet := "0xW", network := "base-sepolia",
            facilitatorURL := "https://x402.org/facilitator", defaultPrice := "0.01",
            rules := [], backends := [] } "0.01").body = strBytes "X" :=
  c7_challenge_roundtrip (fun _ => strBytes "X") "/api/test"
    { name := "r", ns := "default", wallet := "0xW", network := "base-sepolia",
      facilitatorURL := "https://x402.org/facilitator", defaultPrice := "0.01",
      rules := [], backends := [] } "0.01"
    { x402Version := 2
      resource := some
        { url := "/api/test"
          description := "Payment required to access this resource"
          mimeType := "" }
      accepts :=
        [{ scheme := "exact", network := "eip155:84532", amount := "10000",
           payTo := "0xW", maxTimeoutSeconds := 300,
           asset := "0x036CbD53842c5426634e7929541eC2318f3dCF7e",
           extra := some { name := "USDC", version := "2" } }]
      error := "" }
    rfl (by decide)

end X402
